import Mathlib

/-!
Shallow embedding of the Magical-Adventure service worker
(`src/unnamed/part_001`, the v4 worker that the collapsed design in
`spec.md` describes; the v2/v3 variants in `src/sw.js` and
`src/unnamed/part_000` share the drain loop and guard logic verbatim).

The embedding covers:
* the versioned resource cache (`caches` store, `install`, `activate`,
  `forceUpdate`);
* the fetch interceptor (cache-first with network fallback);
* the deferred action queue drains (`syncPhotoUploads`,
  `syncUserActions`) and `removePendingAction` / `removePendingUpload`.

Asynchronous browser APIs are modelled by explicit state passing: the
network is an oracle (`Option`-valued, `none` = the fetch rejected), the
cache store is an association list of named generations, and the durable
queue store is a list of entries.
-/

namespace SW

/-- An HTTP response as the service worker sees it: `status`,
`response.type` (`"basic"`, `"cors"`, `"opaque"`, or `"default"` for a
constructed `Response`), and the body bytes. -/
structure StoredResponse where
  status : Nat
  respType : String
  body : String
deriving DecidableEq, Repr

/-- A request as seen by the `fetch` listener: `event.request.method`,
`.url`, `.mode` (e.g. `"navigate"`) and `.destination` (e.g. `"image"`,
`"document"`). -/
structure Request where
  method : String
  url : String
  mode : String
  destination : String
deriving DecidableEq, Repr

/-- One cache generation: response entries keyed by URL (for the GET
requests this worker caches, the request identity is its URL). -/
abbrev Cache : Type := List (String × StoredResponse)

/-- The CacheStorage (`caches`): named generations, in creation order. -/
abbrev CacheStore : Type := List (String × Cache)

/-- `cache.match(url)` inside one generation: first entry whose key is
the URL. -/
def cacheLookup (c : Cache) (k : String) : Option StoredResponse :=
  (c.find? (fun p => decide (p.1 = k))).map Prod.snd

/-- `cache.put(url, resp)`: insert or overwrite the entry for `k`. -/
def cachePut (c : Cache) (k : String) (r : StoredResponse) : Cache :=
  c.filter (fun p => decide (p.1 ≠ k)) ++ [(k, r)]

/-- `caches.match(url)`: search every generation in order, first hit
wins. -/
def cachesMatch (s : CacheStore) (k : String) : Option StoredResponse :=
  match s with
  | [] => none
  | (_, c) :: rest =>
    match cacheLookup c k with
    | some r => some r
    | none => cachesMatch rest k

/-- `caches.keys()`. -/
def cachesKeys (s : CacheStore) : List String := s.map Prod.fst

/-- `caches.open(name)`: idempotent, creates the generation if absent. -/
def cachesOpen (s : CacheStore) (name : String) : CacheStore :=
  if name ∈ cachesKeys s then s else s ++ [(name, [])]

/-- `caches.delete(name)`. -/
def cachesDelete (s : CacheStore) (name : String) : CacheStore :=
  s.filter (fun p => decide (p.1 ≠ name))

/-- The generation stored under `name` (`[]` when absent). -/
def getCache (s : CacheStore) (name : String) : Cache :=
  match (s.find? (fun p => decide (p.1 = name))).map Prod.snd with
  | some c => c
  | none => []

/-- Replace the contents of the generation named `name`. -/
def setCache (s : CacheStore) (name : String) (c : Cache) : CacheStore :=
  s.map (fun p => if p.1 = name then (p.1, c) else p)

/-- `caches.open(name)` followed by `cache.put(k, r)` on the opened
generation. -/
def storePut (s : CacheStore) (name k : String) (r : StoredResponse) :
    CacheStore :=
  let s1 := cachesOpen s name
  setCache s1 name (cachePut (getCache s1 name) k r)

/-- The v4 generation tag (`src/unnamed/part_001` line 1). -/
def CACHE_NAME : String := "magical-adventure-v4"

/-- The configured pre-fetch asset set (`src/unnamed/part_001`
lines 2-12). -/
def urlsToCache : List String :=
  ["./", "./index.html", "./manifest.json", "./school-of-magic.mp3",
   "./icon-192-any.png", "./icon-192-maskable.png", "./icon-512-any.png",
   "./icon-512-maskable.png",
   "https://fonts.googleapis.com/css2?family=Cinzel:wght@400;600;700&family=Crimson+Text:ital,wght@0,400;0,600;1,400&display=swap"]

/-- Storing the fetch result of one URL during `cache.addAll`. -/
def addAllStep (net : String → Option StoredResponse) (acc : Cache)
    (u : String) : Cache :=
  match net u with
  | some r => cachePut acc u r
  | none => acc

/-- `cache.addAll(urls)`: fetch every URL and store the results; the
operation is atomic — if any fetch fails the whole call rejects and the
cache is left unchanged. `net` is the network oracle for population. -/
def addAll (net : String → Option StoredResponse) (urls : List String)
    (c : Cache) : Option Cache :=
  if urls.all (fun u => (net u).isSome) then
    some (urls.foldl (addAllStep net) c)
  else none

/-- The install listener (`src/unnamed/part_001` lines 15-31): open the
new generation and `addAll` the configured assets; an `addAll` failure
is caught and only logged, leaving the opened generation as is. -/
def install (net : String → Option StoredResponse) (s : CacheStore) :
    CacheStore :=
  let s1 := cachesOpen s CACHE_NAME
  match addAll net urlsToCache (getCache s1 CACHE_NAME) with
  | some c => setCache s1 CACHE_NAME c
  | none => s1

/-- The activate listener (`src/unnamed/part_001` lines 34-57): delete
every generation whose tag differs from `CACHE_NAME`. -/
def activate (s : CacheStore) : CacheStore :=
  s.filter (fun p => decide (p.1 = CACHE_NAME))

/-- `forceUpdate` (`src/unnamed/part_001` lines 683-711): delete every
non-current generation, then re-run `addAll` on the current generation;
an `addAll` failure is caught and only logged. -/
def forceUpdate (net : String → Option StoredResponse) (s : CacheStore) :
    CacheStore :=
  let s1 := s.filter (fun p => decide (p.1 = CACHE_NAME))
  let s2 := cachesOpen s1 CACHE_NAME
  match addAll net urlsToCache (getCache s2 CACHE_NAME) with
  | some c => setCache s2 CACHE_NAME c
  | none => s2

/-- What the page that issued the request observes from the fetch
listener. `passThrough` = the listener returned without calling
`respondWith` (the browser performs the request itself); `served r` =
`respondWith` settled with the response `r`; `failed` = `respondWith`
rejected, or resolved with no response (`undefined`) — either way the
caller sees a failed fetch. -/
inductive FetchResult where
  | passThrough : FetchResult
  | served (r : StoredResponse) : FetchResult
  | failed : FetchResult
deriving DecidableEq, Repr

/-- The full observable outcome of one fetch interception: the result
seen by the caller, the cache store afterwards, the network fetches the
worker issued (in order) and the cache keys it looked up (in order). -/
structure FetchOutcome where
  result : FetchResult
  store : CacheStore
  netCalls : List Request
  cacheLookups : List String
deriving DecidableEq, Repr

/-- The offline fallback document used by the navigation branch. -/
def indexHtml : String := "./index.html"

/-- `new Response('', \x7b status: 204, statusText: 'No Content' \x7d)`:
a constructed `Response` has type `"default"`. -/
def emptyNoContent : StoredResponse :=
  { status := 204, respType := "default", body := "" }

/-- JS `s.startsWith(pre)`, modelled on the code-point list (so that it
is kernel-computable). -/
def strStartsWith (s pre : String) : Bool :=
  decide (s.data.take pre.data.length = pre.data)

/-- The body of `event.respondWith(...)` in the fetch listener
(`src/unnamed/part_001` lines 66-117): cache-first; on a miss,
navigations are network-first with the cached `./index.html` as
fallback, other requests are network-with-cache-store, a failed image
fetch yields an empty 204 response, and any other network failure is
rethrown. `net` is the network oracle (`none` = the fetch rejected). -/
def interceptFetch (store : CacheStore)
    (net : Request → Option StoredResponse) (req : Request) :
    FetchOutcome :=
  match cachesMatch store req.url with
  | some r =>
    { result := .served r, store := store, netCalls := [],
      cacheLookups := [req.url] }
  | none =>
    if req.mode = "navigate" then
      match net req with
      | some resp =>
        if resp.status = 200 then
          { result := .served resp,
            store := storePut store CACHE_NAME req.url resp,
            netCalls := [req], cacheLookups := [req.url] }
        else
          { result := .served resp, store := store, netCalls := [req],
            cacheLookups := [req.url] }
      | none =>
        match cachesMatch store indexHtml with
        | some fallback =>
          { result := .served fallback, store := store,
            netCalls := [req], cacheLookups := [req.url, indexHtml] }
        | none =>
          { result := .failed, store := store, netCalls := [req],
            cacheLookups := [req.url, indexHtml] }
    else
      match net req with
      | some resp =>
        if resp.status = 200 ∧ resp.respType = "basic" then
          { result := .served resp,
            store := storePut store CACHE_NAME req.url resp,
            netCalls := [req], cacheLookups := [req.url] }
        else
          { result := .served resp, store := store, netCalls := [req],
            cacheLookups := [req.url] }
      | none =>
        if req.destination = "image" then
          { result := .served emptyNoContent, store := store,
            netCalls := [req], cacheLookups := [req.url] }
        else
          { result := .failed, store := store, netCalls := [req],
            cacheLookups := [req.url] }

/-- The fetch listener (`src/unnamed/part_001` lines 60-118): requests
whose method is not GET or whose URL does not start with `"http"` are
not intercepted at all; all others go through `interceptFetch`. -/
def handleFetch (store : CacheStore)
    (net : Request → Option StoredResponse) (req : Request) :
    FetchOutcome :=
  if req.method = "GET" ∧ strStartsWith req.url "http" = true then
    interceptFetch store net req
  else
    { result := .passThrough, store := store, netCalls := [],
      cacheLookups := [] }

/-- The scheme of a URL string: everything before the first `:`.
This formalises the spec's wording "scheme is not http or https"; the
code itself never computes a scheme, it tests `url.startsWith('http')`. -/
def schemeOf (u : String) : String :=
  String.mk (u.data.takeWhile (fun c => decide (c ≠ ':')))

/-- One queued entry of the deferred action queue: unique id plus an
opaque payload. -/
structure QueueEntry where
  id : Nat
  payload : String
deriving DecidableEq, Repr

/-- The structured events broadcast through `notifyClients`. -/
inductive Notification where
  | photoSyncSuccess (e : QueueEntry) : Notification
  | actionSyncSuccess (e : QueueEntry) : Notification
  | syncComplete (count : Nat) : Notification
deriving DecidableEq, Repr

/-- `removePendingAction(id)` (`src/unnamed/part_001` lines 442-451,
identical in `src/unnamed/part_000` lines 314-323): rewrite the stored
list to the entries whose id differs from `id`. -/
def removePendingAction (store : List QueueEntry) (id : Nat) :
    List QueueEntry :=
  store.filter (fun a => decide (a.id ≠ id))

/-- `removePendingUpload(id)` (`src/unnamed/part_001` lines 415-440):
delete the record stored under key `id` in the `pendingUploads`
IndexedDB store (keys are unique, so this removes the entry with that
id). -/
def removePendingUpload (store : List QueueEntry) (id : Nat) :
    List QueueEntry :=
  store.filter (fun a => decide (a.id ≠ id))

/-- The observable outcome of one drain: the durable store afterwards,
the notifications broadcast (in order), the entries handed to the
submit capability (in order), the success counter, and the ids passed
to the remove helper (in order). -/
structure DrainResult where
  store : List QueueEntry
  notifications : List Notification
  attempts : List QueueEntry
  successCount : Nat
  deleted : List Nat
deriving DecidableEq, Repr

/-- One iteration of the `for (const entry of pending)` loop shared by
`syncPhotoUploads` and `syncUserActions`: try the submit capability;
on success remove the entry from the store, bump the counter and emit
the per-item event `mk entry`; on failure (the inner `catch`) only log
and continue. -/
def drainStep (remove : List QueueEntry → Nat → List QueueEntry)
    (submit : QueueEntry → Bool) (mk : QueueEntry → Notification)
    (st : DrainResult) (e : QueueEntry) : DrainResult :=
  if submit e then
    { store := remove st.store e.id,
      notifications := st.notifications ++ [mk e],
      attempts := st.attempts ++ [e],
      successCount := st.successCount + 1,
      deleted := st.deleted ++ [e.id] }
  else
    { st with attempts := st.attempts ++ [e] }

/-- The whole drain body shared by `syncPhotoUploads`
(`src/unnamed/part_001` lines 205-248) and `syncUserActions`
(lines 250-291): read the pending list; if it is empty return at once;
otherwise loop over the listed entries and finally, when at least one
entry succeeded, emit one aggregate `SYNC_COMPLETE` event carrying the
counter. -/
def drainQueue (remove : List QueueEntry → Nat → List QueueEntry)
    (submit : QueueEntry → Bool) (mk : QueueEntry → Notification)
    (store : List QueueEntry) : DrainResult :=
  let pending := store
  if pending.isEmpty then
    { store := store, notifications := [], attempts := [],
      successCount := 0, deleted := [] }
  else
    let r := pending.foldl (drainStep remove submit mk)
      { store := store, notifications := [], attempts := [],
        successCount := 0, deleted := [] }
    if r.successCount > 0 then
      { r with notifications :=
          r.notifications ++ [.syncComplete r.successCount] }
    else r

/-- `syncPhotoUploads` (`src/unnamed/part_001` lines 205-248), with the
upload transport as the opaque `submit` capability. -/
def syncPhotoUploads (submit : QueueEntry → Bool)
    (store : List QueueEntry) : DrainResult :=
  drainQueue removePendingUpload submit .photoSyncSuccess store

/-- `syncUserActions` (`src/unnamed/part_001` lines 250-291), with the
action transport as the opaque `submit` capability. -/
def syncUserActions (submit : QueueEntry → Bool)
    (store : List QueueEntry) : DrainResult :=
  drainQueue removePendingAction submit .actionSyncSuccess store

/-! ### Lemmas about the deferred action queue -/

theorem removePendingUpload_eq_removePendingAction :
    removePendingUpload = removePendingAction := rfl

theorem decide_not_mem_cons {α : Type} [DecidableEq α] (x i : α)
    (ids : List α) :
    (decide (x ∉ ids) && decide (x ≠ i)) = decide (x ∉ i :: ids) := by
  by_cases h1 : x = i <;> by_cases h2 : x ∈ ids <;> simp [h1, h2]

theorem drainLoop_eq (remove : List QueueEntry → Nat → List QueueEntry)
    (submit : QueueEntry → Bool) (mk : QueueEntry → Notification)
    (hrem : ∀ s i, remove s i = s.filter (fun a => decide (a.id ≠ i)))
    (pending : List QueueEntry) :
    ∀ st : DrainResult,
    pending.foldl (drainStep remove submit mk) st =
      { store := st.store.filter
          (fun a => decide (a.id ∉ (pending.filter submit).map QueueEntry.id)),
        notifications := st.notifications ++ (pending.filter submit).map mk,
        attempts := st.attempts ++ pending,
        successCount := st.successCount + (pending.filter submit).length,
        deleted := st.deleted ++ (pending.filter submit).map QueueEntry.id } := by
  induction pending with
  | nil => intro st; simp
  | cons p ps ih =>
    intro st
    rw [List.foldl_cons, ih]
    by_cases hp : submit p = true
    · simp only [drainStep, hp, if_true, hrem, List.filter_cons, List.map_cons,
        List.length_cons, DrainResult.mk.injEq]
      refine ⟨?_, ?_, ?_, ?_, ?_⟩
      · rw [List.filter_filter]
        exact List.filter_congr (fun a _ => decide_not_mem_cons a.id p.id _)
      · simp
      · simp
      · omega
      · simp
    · simp only [drainStep, hp, if_false, List.filter_cons, DrainResult.mk.injEq]
      simp [hp]

theorem drainQueue_store (remove : List QueueEntry → Nat → List QueueEntry)
    (submit : QueueEntry → Bool) (mk : QueueEntry → Notification)
    (hrem : ∀ s i, remove s i = s.filter (fun a => decide (a.id ≠ i)))
    (store : List QueueEntry) :
    (drainQueue remove submit mk store).store =
      store.filter
        (fun a => decide (a.id ∉ (store.filter submit).map QueueEntry.id)) := by
  cases store with
  | nil => rfl
  | cons p ps =>
    unfold drainQueue
    rw [if_neg (by simp)]
    rw [drainLoop_eq remove submit mk hrem]
    simp only [List.nil_append, Nat.zero_add, gt_iff_lt]
    split <;> rfl

theorem drainQueue_attempts (remove : List QueueEntry → Nat → List QueueEntry)
    (submit : QueueEntry → Bool) (mk : QueueEntry → Notification)
    (hrem : ∀ s i, remove s i = s.filter (fun a => decide (a.id ≠ i)))
    (store : List QueueEntry) :
    (drainQueue remove submit mk store).attempts = store := by
  cases store with
  | nil => rfl
  | cons p ps =>
    unfold drainQueue
    rw [if_neg (by simp)]
    rw [drainLoop_eq remove submit mk hrem]
    simp only [List.nil_append, Nat.zero_add, gt_iff_lt]
    split <;> rfl

theorem drainQueue_successCount
    (remove : List QueueEntry → Nat → List QueueEntry)
    (submit : QueueEntry → Bool) (mk : QueueEntry → Notification)
    (hrem : ∀ s i, remove s i = s.filter (fun a => decide (a.id ≠ i)))
    (store : List QueueEntry) :
    (drainQueue remove submit mk store).successCount =
      (store.filter submit).length := by
  cases store with
  | nil => rfl
  | cons p ps =>
    unfold drainQueue
    rw [if_neg (by simp)]
    rw [drainLoop_eq remove submit mk hrem]
    simp only [List.nil_append, Nat.zero_add, gt_iff_lt]
    split <;> rfl

theorem drainQueue_deleted (remove : List QueueEntry → Nat → List QueueEntry)
    (submit : QueueEntry → Bool) (mk : QueueEntry → Notification)
    (hrem : ∀ s i, remove s i = s.filter (fun a => decide (a.id ≠ i)))
    (store : List QueueEntry) :
    (drainQueue remove submit mk store).deleted =
      (store.filter submit).map QueueEntry.id := by
  cases store with
  | nil => rfl
  | cons p ps =>
    unfold drainQueue
    rw [if_neg (by simp)]
    rw [drainLoop_eq remove submit mk hrem]
    simp only [List.nil_append, Nat.zero_add, gt_iff_lt]
    split <;> rfl

theorem drainQueue_notifications
    (remove : List QueueEntry → Nat → List QueueEntry)
    (submit : QueueEntry → Bool) (mk : QueueEntry → Notification)
    (hrem : ∀ s i, remove s i = s.filter (fun a => decide (a.id ≠ i)))
    (store : List QueueEntry) :
    (drainQueue remove submit mk store).notifications =
      (if 0 < (store.filter submit).length then
        (store.filter submit).map mk ++
          [Notification.syncComplete (store.filter submit).length]
      else (store.filter submit).map mk) := by
  cases store with
  | nil => rfl
  | cons p ps =>
    unfold drainQueue
    rw [if_neg (by simp)]
    rw [drainLoop_eq remove submit mk hrem]
    simp only [List.nil_append, Nat.zero_add, gt_iff_lt]
    split <;> rfl

theorem failed_id_not_deleted (submit : QueueEntry → Bool)
    (store : List QueueEntry) (hnd : (store.map QueueEntry.id).Nodup)
    (e : QueueEntry) (he : e ∈ store) (hf : submit e = false) :
    e.id ∉ (store.filter submit).map QueueEntry.id := by
  intro hmem
  obtain ⟨x, hx, hidx⟩ := List.mem_map.mp hmem
  have hxs := List.mem_filter.mp hx
  have hxe : x = e := List.inj_on_of_nodup_map hnd hxs.1 he hidx
  rw [hxe, hf] at hxs
  exact absurd hxs.2 (by simp)

/-- Claim C1: in every drain of a queue category, the listed entries are
handed to the submit capability exactly in listed order (so a failure on
one entry never prevents attempting the subsequent entries), the success
counter counts exactly the successful submits, and an entry whose submit
fails stays in the store and is never deleted. -/
theorem drain_failure_isolation (submit : QueueEntry → Bool)
    (store : List QueueEntry) :
    (syncUserActions submit store).attempts = store ∧
    (syncPhotoUploads submit store).attempts = store ∧
    (syncUserActions submit store).successCount =
      (store.filter submit).length ∧
    (syncPhotoUploads submit store).successCount =
      (store.filter submit).length ∧
    ((store.map QueueEntry.id).Nodup →
      ∀ e ∈ store, submit e = false →
        e ∈ (syncUserActions submit store).store ∧
        e ∈ (syncPhotoUploads submit store).store ∧
        e.id ∉ (syncUserActions submit store).deleted ∧
        e.id ∉ (syncPhotoUploads submit store).deleted) := by
  have hremA : ∀ s i, removePendingAction s i =
      s.filter (fun a => decide (a.id ≠ i)) := fun _ _ => rfl
  have hremU : ∀ s i, removePendingUpload s i =
      s.filter (fun a => decide (a.id ≠ i)) := fun _ _ => rfl
  refine ⟨drainQueue_attempts _ _ _ hremA store,
    drainQueue_attempts _ _ _ hremU store,
    drainQueue_successCount _ _ _ hremA store,
    drainQueue_successCount _ _ _ hremU store, ?_⟩
  intro hnd e he hf
  have hid := failed_id_not_deleted submit store hnd e he hf
  refine ⟨?_, ?_, ?_, ?_⟩
  · rw [show (syncUserActions submit store).store =
        store.filter
          (fun a => decide (a.id ∉ (store.filter submit).map QueueEntry.id))
        from drainQueue_store _ _ _ hremA store]
    exact List.mem_filter.mpr ⟨he, by simpa using hid⟩
  · rw [show (syncPhotoUploads submit store).store =
        store.filter
          (fun a => decide (a.id ∉ (store.filter submit).map QueueEntry.id))
        from drainQueue_store _ _ _ hremU store]
    exact List.mem_filter.mpr ⟨he, by simpa using hid⟩
  · rw [show (syncUserActions submit store).deleted =
        (store.filter submit).map QueueEntry.id
        from drainQueue_deleted _ _ _ hremA store]
    exact hid
  · rw [show (syncPhotoUploads submit store).deleted =
        (store.filter submit).map QueueEntry.id
        from drainQueue_deleted _ _ _ hremU store]
    exact hid

theorem drain_failure_isolation_witness :
    QueueEntry.mk 2 "b" ∈
      (syncUserActions (fun a => decide (a.id ≠ 2))
        [QueueEntry.mk 1 "a", QueueEntry.mk 2 "b", QueueEntry.mk 3 "c"]).store :=
  ((drain_failure_isolation (fun a => decide (a.id ≠ 2))
      [QueueEntry.mk 1 "a", QueueEntry.mk 2 "b", QueueEntry.mk 3 "c"]).2.2.2.2
    (by decide) (QueueEntry.mk 2 "b") (by decide) (by decide)).1

/-- Claim C4 as stated is false at N = 1: in a drain whose single listed
entry fails (so "exactly one entry fails and all others succeed" holds
vacuously), the code emits no aggregate drain-complete notification at
all, while the claim demands exactly one carrying the count N - 1 = 0.
The success counter is 0, and the worker only notifies when it is
positive. -/
theorem drain_counts_counterexample :
    ((fun (_ : QueueEntry) => false) (QueueEntry.mk 5 "x") = false) ∧
    (syncUserActions (fun _ => false) [QueueEntry.mk 5 "x"]).notifications = [] ∧
    ¬ ((syncUserActions (fun _ => false) [QueueEntry.mk 5 "x"]).notifications.count
        (Notification.syncComplete
          (([QueueEntry.mk 5 "x"] : List QueueEntry).length - 1)) = 1) := by
  decide

theorem submit_true_of_ne {submit : QueueEntry → Bool}
    {store : List QueueEntry} {e x : QueueEntry}
    (hf : ∀ y ∈ store, (submit y = false ↔ y = e)) (hx : x ∈ store)
    (hxe : ¬ x = e) : submit x = true := by
  rcases Bool.eq_false_or_eq_true (submit x) with h | h
  · exact h
  · exact absurd ((hf x hx).mp h) hxe

theorem one_failure_filter_not (submit : QueueEntry → Bool)
    (store : List QueueEntry) (e : QueueEntry)
    (hnd : (store.map QueueEntry.id).Nodup) (he : e ∈ store)
    (hf : ∀ x ∈ store, (submit x = false ↔ x = e)) :
    store.filter (fun a => !(submit a)) = [e] := by
  have hcount : store.count e = 1 :=
    List.count_eq_one_of_mem (List.Nodup.of_map QueueEntry.id hnd) he
  have h1 : store.filter (fun a => !(submit a)) =
      store.filter (fun a => a == e) := by
    apply List.filter_congr
    intro x hx
    by_cases hxe : x = e
    · subst hxe
      simp [(hf x hx).mpr rfl]
    · simp [submit_true_of_ne hf hx hxe, hxe]
  rw [h1, List.filter_beq, hcount, List.replicate_one]

/-- Claim C4 (amended): in a drain of N listed entries with pairwise
distinct ids in which exactly the entry `e` fails and all others
succeed, exactly N-1 deletions are performed, the store afterwards is
exactly `[e]`, the per-item success notifications are exactly those of
the N-1 successful entries, and — provided at least one entry succeeded,
i.e. N ≥ 2 — exactly one aggregate drain-complete notification carrying
the count N-1 follows them (when no entry succeeds the code emits no
aggregate notification); a drain of an empty listed set emits no
notification and does not mutate the store. -/
theorem drain_one_failure_counts (submit : QueueEntry → Bool)
    (store : List QueueEntry) (e : QueueEntry)
    (hnd : (store.map QueueEntry.id).Nodup) (he : e ∈ store)
    (hf : ∀ x ∈ store, (submit x = false ↔ x = e))
    (hN : 2 ≤ store.length) :
    (store.filter submit).length = store.length - 1 ∧
    (syncUserActions submit store).store = [e] ∧
    (syncPhotoUploads submit store).store = [e] ∧
    (syncUserActions submit store).deleted.length = store.length - 1 ∧
    (syncPhotoUploads submit store).deleted.length = store.length - 1 ∧
    (syncUserActions submit store).notifications =
      (store.filter submit).map Notification.actionSyncSuccess ++
        [Notification.syncComplete (store.length - 1)] ∧
    (syncPhotoUploads submit store).notifications =
      (store.filter submit).map Notification.photoSyncSuccess ++
        [Notification.syncComplete (store.length - 1)] ∧
    (∀ f : QueueEntry → Bool,
      syncUserActions f [] =
        { store := [], notifications := [], attempts := [],
          successCount := 0, deleted := [] } ∧
      syncPhotoUploads f [] =
        { store := [], notifications := [], attempts := [],
          successCount := 0, deleted := [] }) := by
  have hremA : ∀ s i, removePendingAction s i =
      s.filter (fun a => decide (a.id ≠ i)) := fun _ _ => rfl
  have hremU : ∀ s i, removePendingUpload s i =
      s.filter (fun a => decide (a.id ≠ i)) := fun _ _ => rfl
  have hcount : store.count e = 1 :=
    List.count_eq_one_of_mem (List.Nodup.of_map QueueEntry.id hnd) he
  have hfail := one_failure_filter_not submit store e hnd he hf
  have hlen : (store.filter submit).length = store.length - 1 := by
    have h := List.length_eq_length_filter_add (l := store) submit
    rw [hfail, List.length_singleton] at h
    omega
  have hself : submit e = false := (hf e he).mpr rfl
  have hid := failed_id_not_deleted submit store hnd e he hself
  have hstore : store.filter
      (fun a => decide (a.id ∉ (store.filter submit).map QueueEntry.id)) =
      [e] := by
    have h2 : store.filter
        (fun a => decide (a.id ∉ (store.filter submit).map QueueEntry.id)) =
        store.filter (fun a => a == e) := by
      apply List.filter_congr
      intro x hx
      by_cases hxe : x = e
      · subst hxe
        simp [hid]
      · have hsx := submit_true_of_ne hf hx hxe
        have hxin : x.id ∈ (store.filter submit).map QueueEntry.id :=
          List.mem_map.mpr ⟨x, List.mem_filter.mpr ⟨hx, hsx⟩, rfl⟩
        simp [hxin, hxe]
    rw [h2, List.filter_beq, hcount, List.replicate_one]
  have hpos : 0 < (store.filter submit).length := by omega
  refine ⟨hlen, ?_, ?_, ?_, ?_, ?_, ?_, fun f => ⟨rfl, rfl⟩⟩
  · rw [show (syncUserActions submit store).store =
        store.filter
          (fun a => decide (a.id ∉ (store.filter submit).map QueueEntry.id))
        from drainQueue_store _ _ _ hremA store]
    exact hstore
  · rw [show (syncPhotoUploads submit store).store =
        store.filter
          (fun a => decide (a.id ∉ (store.filter submit).map QueueEntry.id))
        from drainQueue_store _ _ _ hremU store]
    exact hstore
  · rw [show (syncUserActions submit store).deleted =
        (store.filter submit).map QueueEntry.id
        from drainQueue_deleted _ _ _ hremA store]
    rw [List.length_map]
    exact hlen
  · rw [show (syncPhotoUploads submit store).deleted =
        (store.filter submit).map QueueEntry.id
        from drainQueue_deleted _ _ _ hremU store]
    rw [List.length_map]
    exact hlen
  · rw [show (syncUserActions submit store).notifications = _
        from drainQueue_notifications _ _ _ hremA store]
    rw [if_pos hpos, hlen]
  · rw [show (syncPhotoUploads submit store).notifications = _
        from drainQueue_notifications _ _ _ hremU store]
    rw [if_pos hpos, hlen]

theorem drain_one_failure_counts_witness :
    (syncUserActions (fun a => decide (a.id ≠ 2))
      [QueueEntry.mk 1 "a", QueueEntry.mk 2 "b", QueueEntry.mk 3 "c"]).store =
      [QueueEntry.mk 2 "b"] :=
  (drain_one_failure_counts (fun a => decide (a.id ≠ 2))
    [QueueEntry.mk 1 "a", QueueEntry.mk 2 "b", QueueEntry.mk 3 "c"]
    (QueueEntry.mk 2 "b") (by decide) (by decide) (by decide)
    (by decide)).2.1

/-- Claim C10: removing the pending action with id `k` rewrites the
stored list to exactly the entries whose id differs from `k` — the
result is a sublist of the original (entries unchanged and in original
relative order), contains no entry with id `k`, and keeps every entry
whose id differs from `k` with its exact multiplicity. -/
theorem removePendingAction_removes_exactly_id (store : List QueueEntry)
    (k : Nat) :
    (removePendingAction store k).Sublist store ∧
    (∀ e ∈ removePendingAction store k, e.id ≠ k) ∧
    (∀ e : QueueEntry, e.id ≠ k →
      (removePendingAction store k).count e = store.count e) := by
  refine ⟨List.filter_sublist store, ?_, ?_⟩
  · intro e hmem
    have h := (List.mem_filter.mp hmem).2
    simpa using h
  · intro e hek
    exact List.count_filter (by simpa using hek)

theorem removePendingAction_removes_exactly_id_witness :
    (removePendingAction [QueueEntry.mk 1 "x", QueueEntry.mk 2 "y"] 1).count
        (QueueEntry.mk 2 "y") =
      ([QueueEntry.mk 1 "x", QueueEntry.mk 2 "y"] : List QueueEntry).count
        (QueueEntry.mk 2 "y") :=
  (removePendingAction_removes_exactly_id
    [QueueEntry.mk 1 "x", QueueEntry.mk 2 "y"] 1).2.2
    (QueueEntry.mk 2 "y") (by decide)

/-! ### The fetch interceptor claims -/

/-- Claim C2: for every intercepted request, if the cache lookup returns
a stored response, that response is returned verbatim, no network fetch
is issued and no cache entry is mutated. -/
theorem cache_hit_wins (store : CacheStore)
    (net : Request → Option StoredResponse) (req : Request)
    (r : StoredResponse) (hm : req.method = "GET")
    (hu : strStartsWith req.url "http" = true)
    (hc : cachesMatch store req.url = some r) :
    handleFetch store net req =
      { result := FetchResult.served r, store := store, netCalls := [],
        cacheLookups := [req.url] } := by
  unfold handleFetch
  rw [if_pos ⟨hm, hu⟩]
  unfold interceptFetch
  rw [hc]

theorem cache_hit_wins_witness :
    handleFetch
        [(CACHE_NAME, [("https://a/x", StoredResponse.mk 200 "basic" "b")])]
        (fun _ => none)
        { method := "GET", url := "https://a/x", mode := "", destination := "" } =
      { result := FetchResult.served (StoredResponse.mk 200 "basic" "b"),
        store :=
          [(CACHE_NAME, [("https://a/x", StoredResponse.mk 200 "basic" "b")])],
        netCalls := [], cacheLookups := ["https://a/x"] } :=
  cache_hit_wins
    [(CACHE_NAME, [("https://a/x", StoredResponse.mk 200 "basic" "b")])]
    (fun _ => none)
    { method := "GET", url := "https://a/x", mode := "", destination := "" }
    (StoredResponse.mk 200 "basic" "b") rfl (by decide) (by decide)

/-- Claim C3 fails as stated: a GET request for `httpx://a` has scheme
`httpx`, which is neither `http` nor `https`, yet the code's guard only
tests `url.startsWith('http')`, so the request IS intercepted — the
worker consults the cache and responds in place of the browser. -/
theorem non_http_scheme_intercepted_counterexample :
    schemeOf "httpx://a" ≠ "http" ∧ schemeOf "httpx://a" ≠ "https" ∧
    (handleFetch [] (fun _ => none)
        { method := "GET", url := "httpx://a", mode := "",
          destination := "" }).result ≠ FetchResult.passThrough ∧
    (handleFetch [] (fun _ => none)
        { method := "GET", url := "httpx://a", mode := "",
          destination := "" }).cacheLookups ≠ [] := by
  decide

/-- Claim C3 (amended): for every request whose method is not GET or
whose URL does not begin with the string "http", the listener does not
intercept: the request passes straight through with no cache lookup, no
cache mutation and no network call from the worker. (The code guards on
`url.startsWith('http')`, not on scheme ∈ \x7bhttp, https\x7d.) -/
theorem non_get_or_non_http_passthrough (store : CacheStore)
    (net : Request → Option StoredResponse) (req : Request)
    (h : req.method ≠ "GET" ∨ strStartsWith req.url "http" = false) :
    handleFetch store net req =
      { result := FetchResult.passThrough, store := store, netCalls := [],
        cacheLookups := [] } := by
  unfold handleFetch
  rw [if_neg]
  rintro ⟨h1, h2⟩
  rcases h with h | h
  · exact h h1
  · rw [h2] at h
    exact Bool.noConfusion h

theorem non_get_or_non_http_passthrough_witness :
    handleFetch [] (fun _ => none)
        { method := "POST", url := "https://a/x", mode := "",
          destination := "" } =
      { result := FetchResult.passThrough, store := [], netCalls := [],
        cacheLookups := [] } :=
  non_get_or_non_http_passthrough [] (fun _ => none)
    { method := "POST", url := "https://a/x", mode := "", destination := "" }
    (Or.inl (by decide))

/-- Claim C6: an intercepted top-level navigation that misses the cache
goes to the network first; a 200 network response is stored and
returned; on network failure the cached `./index.html` is returned, and
when that fallback is itself absent the caller observes the failure. -/
theorem navigation_network_first (store : CacheStore)
    (net : Request → Option StoredResponse) (req : Request)
    (hm : req.method = "GET") (hu : strStartsWith req.url "http" = true)
    (hnav : req.mode = "navigate")
    (hmiss : cachesMatch store req.url = none) :
    (handleFetch store net req).netCalls = [req] ∧
    (∀ resp, net req = some resp → resp.status = 200 →
      handleFetch store net req =
        { result := FetchResult.served resp,
          store := storePut store CACHE_NAME req.url resp,
          netCalls := [req], cacheLookups := [req.url] }) ∧
    (net req = none →
      (∀ fb, cachesMatch store indexHtml = some fb →
        handleFetch store net req =
          { result := FetchResult.served fb, store := store,
            netCalls := [req], cacheLookups := [req.url, indexHtml] }) ∧
      (cachesMatch store indexHtml = none →
        handleFetch store net req =
          { result := FetchResult.failed, store := store,
            netCalls := [req], cacheLookups := [req.url, indexHtml] })) := by
  have hbase : handleFetch store net req = interceptFetch store net req := by
    unfold handleFetch
    rw [if_pos ⟨hm, hu⟩]
  refine ⟨?_, ?_, ?_⟩
  · rw [hbase]
    unfold interceptFetch
    rw [hmiss]
    dsimp only
    rw [if_pos hnav]
    cases hnet : net req with
    | some resp =>
      dsimp only
      by_cases hs : resp.status = 200
      · rw [if_pos hs]
      · rw [if_neg hs]
    | none =>
      dsimp only
      cases hfb : cachesMatch store indexHtml <;> rfl
  · intro resp hnet hs
    rw [hbase]
    unfold interceptFetch
    rw [hmiss]
    dsimp only
    rw [if_pos hnav, hnet]
    dsimp only
    rw [if_pos hs]
  · intro hnet
    constructor
    · intro fb hfb
      rw [hbase]
      unfold interceptFetch
      rw [hmiss]
      dsimp only
      rw [if_pos hnav, hnet]
      dsimp only
      rw [hfb]
    · intro hfb
      rw [hbase]
      unfold interceptFetch
      rw [hmiss]
      dsimp only
      rw [if_pos hnav, hnet]
      dsimp only
      rw [hfb]

theorem navigation_network_first_witness :
    handleFetch [] (fun _ => some (StoredResponse.mk 200 "basic" "page"))
        { method := "GET", url := "https://a/p", mode := "navigate",
          destination := "document" } =
      { result := FetchResult.served (StoredResponse.mk 200 "basic" "page"),
        store := storePut [] CACHE_NAME "https://a/p"
          (StoredResponse.mk 200 "basic" "page"),
        netCalls :=
          [{ method := "GET", url := "https://a/p", mode := "navigate",
             destination := "document" }],
        cacheLookups := ["https://a/p"] } :=
  (navigation_network_first [] (fun _ => some (StoredResponse.mk 200 "basic" "page"))
    { method := "GET", url := "https://a/p", mode := "navigate",
      destination := "document" }
    rfl (by decide) rfl rfl).2.1
    (StoredResponse.mk 200 "basic" "page") rfl rfl

/-- Claim C7 fails as stated: on a navigation cache miss the worker
stores any status-200 network response without checking its type — here
a response of type "cors" (not the same-origin-equivalent "basic" type)
ends up persisted in the cache. -/
theorem store_only_basic_counterexample :
    (StoredResponse.mk 200 "cors" "z").respType ≠ "basic" ∧
    cacheLookup
        (getCache
          (handleFetch [] (fun _ => some (StoredResponse.mk 200 "cors" "z"))
            { method := "GET", url := "https://x/a", mode := "navigate",
              destination := "document" }).store
          CACHE_NAME)
        "https://x/a" = some (StoredResponse.mk 200 "cors" "z") := by
  decide

/-- Claim C7 (amended): a network response is stored into the cache only
when it has status 200 and, in addition, either the request is a
navigation (that branch stores any 200 response regardless of type) or
the response has the same-origin-equivalent "basic" type; any network
response failing this is returned to the caller unchanged, with no
cache entry created or overwritten. -/
theorem store_only_success_responses (store : CacheStore)
    (net : Request → Option StoredResponse) (req : Request) :
    ((handleFetch store net req).store = store ∨
      ∃ resp, net req = some resp ∧ resp.status = 200 ∧
        (req.mode = "navigate" ∨ resp.respType = "basic") ∧
        (handleFetch store net req).store =
          storePut store CACHE_NAME req.url resp ∧
        (handleFetch store net req).result = FetchResult.served resp) ∧
    (∀ resp, req.method = "GET" → strStartsWith req.url "http" = true →
      cachesMatch store req.url = none → net req = some resp →
      ¬ (resp.status = 200 ∧
          (req.mode = "navigate" ∨ resp.respType = "basic")) →
      handleFetch store net req =
        { result := FetchResult.served resp, store := store,
          netCalls := [req], cacheLookups := [req.url] }) := by
  constructor
  · unfold handleFetch
    by_cases hg : req.method = "GET" ∧ strStartsWith req.url "http" = true
    · rw [if_pos hg]
      unfold interceptFetch
      cases hc : cachesMatch store req.url with
      | some r => left; rfl
      | none =>
        dsimp only
        by_cases hnav : req.mode = "navigate"
        · rw [if_pos hnav]
          cases hnet : net req with
          | some resp =>
            dsimp only
            by_cases hs : resp.status = 200
            · rw [if_pos hs]
              exact Or.inr ⟨resp, rfl, hs, Or.inl hnav, rfl, rfl⟩
            · rw [if_neg hs]
              left; rfl
          | none =>
            dsimp only
            cases hfb : cachesMatch store indexHtml with
            | some fb => left; rfl
            | none => left; rfl
        · rw [if_neg hnav]
          cases hnet : net req with
          | some resp =>
            dsimp only
            by_cases hsb : resp.status = 200 ∧ resp.respType = "basic"
            · rw [if_pos hsb]
              exact Or.inr ⟨resp, rfl, hsb.1, Or.inr hsb.2, rfl, rfl⟩
            · rw [if_neg hsb]
              left; rfl
          | none =>
            dsimp only
            by_cases hi : req.destination = "image"
            · rw [if_pos hi]; left; rfl
            · rw [if_neg hi]; left; rfl
    · rw [if_neg hg]; left; rfl
  · intro resp hm hu hmiss hnet hnot
    unfold handleFetch
    rw [if_pos ⟨hm, hu⟩]
    unfold interceptFetch
    rw [hmiss]
    dsimp only
    by_cases hnav : req.mode = "navigate"
    · rw [if_pos hnav, hnet]
      dsimp only
      rw [if_neg (fun hs => hnot ⟨hs, Or.inl hnav⟩)]
    · rw [if_neg hnav, hnet]
      dsimp only
      rw [if_neg (fun hsb => hnot ⟨hsb.1, Or.inr hsb.2⟩)]

theorem store_only_success_responses_witness :
    handleFetch [] (fun _ => some (StoredResponse.mk 404 "basic" "nope"))
        { method := "GET", url := "https://a/m", mode := "",
          destination := "script" } =
      { result := FetchResult.served (StoredResponse.mk 404 "basic" "nope"),
        store := [],
        netCalls :=
          [{ method := "GET", url := "https://a/m", mode := "",
             destination := "script" }],
        cacheLookups := ["https://a/m"] } :=
  (store_only_success_responses [] (fun _ => some (StoredResponse.mk 404 "basic" "nope"))
    { method := "GET", url := "https://a/m", mode := "",
      destination := "script" }).2
    (StoredResponse.mk 404 "basic" "nope") rfl (by decide) rfl rfl (by decide)

/-- Claim C8: for an intercepted non-navigation request that misses the
cache and whose network fetch fails, the worker answers an image request
with an empty explicit 204 no-content response (not a failure), and
propagates the failure to the caller for every other destination; the
cache is untouched either way. -/
theorem image_fallback_204 (store : CacheStore)
    (net : Request → Option StoredResponse) (req : Request)
    (hm : req.method = "GET") (hu : strStartsWith req.url "http" = true)
    (hnav : ¬ req.mode = "navigate")
    (hmiss : cachesMatch store req.url = none) (hfail : net req = none) :
    emptyNoContent.status = 204 ∧ emptyNoContent.body = "" ∧
    (req.destination = "image" →
      handleFetch store net req =
        { result := FetchResult.served emptyNoContent, store := store,
          netCalls := [req], cacheLookups := [req.url] }) ∧
    (¬ req.destination = "image" →
      handleFetch store net req =
        { result := FetchResult.failed, store := store,
          netCalls := [req], cacheLookups := [req.url] }) := by
  refine ⟨rfl, rfl, ?_, ?_⟩
  · intro hi
    unfold handleFetch
    rw [if_pos ⟨hm, hu⟩]
    unfold interceptFetch
    rw [hmiss]
    dsimp only
    rw [if_neg hnav, hfail]
    dsimp only
    rw [if_pos hi]
  · intro hi
    unfold handleFetch
    rw [if_pos ⟨hm, hu⟩]
    unfold interceptFetch
    rw [hmiss]
    dsimp only
    rw [if_neg hnav, hfail]
    dsimp only
    rw [if_neg hi]

theorem image_fallback_204_witness :
    handleFetch [] (fun _ => none)
        { method := "GET", url := "https://a/i.png", mode := "",
          destination := "image" } =
      { result := FetchResult.served emptyNoContent, store := [],
        netCalls :=
          [{ method := "GET", url := "https://a/i.png", mode := "",
             destination := "image" }],
        cacheLookups := ["https://a/i.png"] } :=
  ((image_fallback_204 [] (fun _ => none)
    { method := "GET", url := "https://a/i.png", mode := "",
      destination := "image" }
    rfl (by decide) (by decide) rfl rfl).2.2.1 rfl)

/-! ### Lemmas about the cache lifecycle -/

theorem keys_setCache (s : CacheStore) (name : String) (c : Cache) :
    cachesKeys (setCache s name c) = cachesKeys s := by
  unfold cachesKeys setCache
  rw [List.map_map]
  apply List.map_congr_left
  intro p _
  by_cases h : p.1 = name <;> simp [h]

theorem keys_of_filter (s : CacheStore) (n : String) :
    cachesKeys (s.filter (fun p => decide (p.1 = n))) =
      (cachesKeys s).filter (fun m => decide (m = n)) := by
  unfold cachesKeys
  rw [List.filter_map]
  rfl

theorem filter_eq_single_of_nodup {l : List String} {n : String}
    (hnd : l.Nodup) (h : n ∈ l) :
    l.filter (fun m => decide (m = n)) = [n] := by
  induction l with
  | nil => cases h
  | cons a t ih =>
    rw [List.nodup_cons] at hnd
    rcases List.mem_cons.mp h with h1 | h1
    · subst h1
      rw [List.filter_cons, if_pos (by simp)]
      have ht : t.filter (fun m => decide (m = n)) = [] := by
        rw [List.filter_eq_nil_iff]
        intro m hm
        simp only [decide_eq_true_eq]
        intro hme
        exact hnd.1 (hme ▸ hm)
      rw [ht]
    · have hne : ¬ (a = n) := fun he => hnd.1 (he ▸ h1)
      rw [List.filter_cons, if_neg (by simp [hne])]
      exact ih hnd.2 h1

/-- Claim C5: running install (open and populate the new generation)
followed immediately by activate leaves exactly one generation in the
store, tagged with the new generation's tag `CACHE_NAME`; every
generation with a different tag has been deleted. -/
theorem install_activate_single_generation
    (net : String → Option StoredResponse) (s : CacheStore)
    (hnd : (cachesKeys s).Nodup) :
    cachesKeys (activate (install net s)) = [CACHE_NAME] := by
  have hkeys : cachesKeys (install net s) =
      cachesKeys (cachesOpen s CACHE_NAME) := by
    simp only [install]
    cases addAll net urlsToCache (getCache (cachesOpen s CACHE_NAME) CACHE_NAME) with
    | some c => exact keys_setCache (cachesOpen s CACHE_NAME) CACHE_NAME c
    | none => rfl
  unfold activate
  rw [keys_of_filter, hkeys]
  unfold cachesOpen
  by_cases hmem : CACHE_NAME ∈ cachesKeys s
  · rw [if_pos hmem]
    exact filter_eq_single_of_nodup hnd hmem
  · rw [if_neg hmem]
    have happ : cachesKeys (s ++ [(CACHE_NAME, [])]) =
        cachesKeys s ++ [CACHE_NAME] := by
      unfold cachesKeys
      rw [List.map_append]
      rfl
    rw [happ, List.filter_append]
    have hnil : (cachesKeys s).filter (fun m => decide (m = CACHE_NAME)) = [] := by
      rw [List.filter_eq_nil_iff]
      intro m hm
      simp only [decide_eq_true_eq]
      intro hme
      exact hmem (hme ▸ hm)
    rw [hnil]
    simp

theorem install_activate_single_generation_witness :
    cachesKeys (activate (install (fun _ => none) [("old-gen", [])])) =
      [CACHE_NAME] :=
  install_activate_single_generation (fun _ => none) [("old-gen", [])]
    (by decide)

theorem addAllStep_none (net : String → Option StoredResponse) (c : Cache)
    (u : String) (h : net u = none) : addAllStep net c u = c := by
  unfold addAllStep
  rw [h]

theorem addAllStep_some (net : String → Option StoredResponse) (c : Cache)
    (u : String) (r : StoredResponse) (h : net u = some r) :
    addAllStep net c u = cachePut c u r := by
  unfold addAllStep
  rw [h]

theorem foldl_addAllStep_eq (net : String → Option StoredResponse)
    (urls : List String) :
    ∀ c : Cache, urls.foldl (addAllStep net) c =
      c.filter
        (fun p => decide (p.1 ∉ urls.filter (fun v => (net v).isSome))) ++
      urls.foldl (addAllStep net) [] := by
  induction urls with
  | nil => intro c; simp
  | cons u us ih =>
    intro c
    rw [List.foldl_cons, List.foldl_cons]
    cases hnu : net u with
    | none =>
      rw [addAllStep_none net c u hnu, addAllStep_none net [] u hnu]
      have hhit : (u :: us).filter (fun v => (net v).isSome) =
          us.filter (fun v => (net v).isSome) := by
        rw [List.filter_cons, if_neg (by simp [hnu])]
      rw [hhit]
      exact ih c
    | some r =>
      rw [addAllStep_some net c u r hnu, addAllStep_some net [] u r hnu]
      have hhit : (u :: us).filter (fun v => (net v).isSome) =
          u :: us.filter (fun v => (net v).isSome) := by
        rw [List.filter_cons, if_pos (by simp [hnu])]
      rw [hhit, ih (cachePut c u r), ih (cachePut [] u r)]
      unfold cachePut
      simp only [List.filter_nil, List.nil_append, List.filter_append,
        List.filter_filter, List.append_assoc]
      congr 1
      exact List.filter_congr (fun p _ => decide_not_mem_cons p.1 u _)

theorem mem_foldl_addAllStep (net : String → Option StoredResponse)
    (urls : List String) :
    ∀ c : Cache, ∀ p ∈ urls.foldl (addAllStep net) c,
      p ∈ c ∨ ((net p.1).isSome = true ∧ p.1 ∈ urls) := by
  induction urls with
  | nil => intro c p hp; exact Or.inl hp
  | cons u us ih =>
    intro c p hp
    rw [List.foldl_cons] at hp
    rcases ih (addAllStep net c u) p hp with h | h
    · cases hnu : net u with
      | none =>
        rw [addAllStep_none net c u hnu] at h
        exact Or.inl h
      | some r =>
        rw [addAllStep_some net c u r hnu] at h
        unfold cachePut at h
        rcases List.mem_append.mp h with h1 | h1
        · exact Or.inl (List.mem_filter.mp h1).1
        · have hp1 : p = (u, r) := by simpa using h1
          refine Or.inr ⟨?_, ?_⟩
          · rw [hp1, hnu]; rfl
          · rw [hp1]; exact List.mem_cons_self u us
    · exact Or.inr ⟨h.1, List.mem_cons_of_mem u h.2⟩

theorem foldl_addAllStep_idem (net : String → Option StoredResponse)
    (urls : List String) (c : Cache) :
    urls.foldl (addAllStep net) (urls.foldl (addAllStep net) c) =
      urls.foldl (addAllStep net) c := by
  have hT : (urls.foldl (addAllStep net) []).filter
      (fun p => decide (p.1 ∉ urls.filter (fun v => (net v).isSome))) =
      [] := by
    rw [List.filter_eq_nil_iff]
    intro p hp
    rcases mem_foldl_addAllStep net urls [] p hp with h | h
    · cases h
    · have hmemf : p.1 ∈ urls.filter (fun v => (net v).isSome) :=
        List.mem_filter.mpr ⟨h.2, h.1⟩
      simp [hmemf]
  rw [foldl_addAllStep_eq net urls (urls.foldl (addAllStep net) c)]
  rw [foldl_addAllStep_eq net urls c]
  rw [List.filter_append, hT, List.append_nil, List.filter_filter]
  congr 1
  exact List.filter_congr (fun p _ => by rw [Bool.and_self])

/-- The populate half of `forceUpdate`: re-run `addAll` on the current
generation's contents; an `addAll` failure is caught and only logged,
leaving the generation as it was. -/
def refreshCache (net : String → Option StoredResponse) (c : Cache) :
    Cache :=
  match addAll net urlsToCache c with
  | some c1 => c1
  | none => c

theorem refreshCache_idem (net : String → Option StoredResponse)
    (c : Cache) :
    refreshCache net (refreshCache net c) = refreshCache net c := by
  cases hall : urlsToCache.all (fun u => (net u).isSome) with
  | false =>
    have h1 : ∀ c1, addAll net urlsToCache c1 = none := by
      intro c1
      unfold addAll
      rw [if_neg (by simp [hall])]
    simp [refreshCache, h1]
  | true =>
    have h2 : ∀ c1, addAll net urlsToCache c1 =
        some (urlsToCache.foldl (addAllStep net) c1) := by
      intro c1
      unfold addAll
      rw [if_pos hall]
    simp [refreshCache, h2, foldl_addAllStep_idem]

theorem filter_key_nodup (s : CacheStore) (n : String)
    (hnd : (cachesKeys s).Nodup) :
    s.filter (fun p => decide (p.1 = n)) = [] ∨
    ∃ c0, s.filter (fun p => decide (p.1 = n)) = [(n, c0)] := by
  induction s with
  | nil => exact Or.inl rfl
  | cons a t ih =>
    unfold cachesKeys at hnd
    rw [List.map_cons, List.nodup_cons] at hnd
    by_cases h : a.1 = n
    · right
      refine ⟨a.2, ?_⟩
      rw [List.filter_cons, if_pos (by simp [h])]
      have ht : t.filter (fun p => decide (p.1 = n)) = [] := by
        rw [List.filter_eq_nil_iff]
        intro p hp
        simp only [decide_eq_true_eq]
        intro hpn
        exact hnd.1 (h ▸ hpn ▸ List.mem_map_of_mem Prod.fst hp)
      rw [ht, ← h]
    · rw [List.filter_cons, if_neg (by simp [h])]
      exact ih hnd.2

theorem forceUpdate_eq_of_filter (net : String → Option StoredResponse)
    (s : CacheStore) (c0 : Cache)
    (hfil : s.filter (fun p => decide (p.1 = CACHE_NAME)) =
      [(CACHE_NAME, c0)]) :
    forceUpdate net s = [(CACHE_NAME, refreshCache net c0)] := by
  simp only [forceUpdate, refreshCache]
  rw [hfil]
  have hopen : cachesOpen [(CACHE_NAME, c0)] CACHE_NAME =
      [(CACHE_NAME, c0)] := by
    unfold cachesOpen cachesKeys
    rw [if_pos (by simp)]
  rw [hopen]
  have hget : getCache [(CACHE_NAME, c0)] CACHE_NAME = c0 := by
    unfold getCache
    simp [List.find?]
  rw [hget]
  cases addAll net urlsToCache c0 with
  | some c1 =>
    dsimp only
    unfold setCache
    simp
  | none => rfl

theorem forceUpdate_eq_of_filter_nil (net : String → Option StoredResponse)
    (s : CacheStore)
    (hfil : s.filter (fun p => decide (p.1 = CACHE_NAME)) = []) :
    forceUpdate net s = [(CACHE_NAME, refreshCache net [])] := by
  simp only [forceUpdate, refreshCache]
  rw [hfil]
  have hopen : cachesOpen [] CACHE_NAME = [(CACHE_NAME, [])] := by
    unfold cachesOpen cachesKeys
    rw [if_neg (by simp)]
    rfl
  rw [hopen]
  have hget : getCache [(CACHE_NAME, [])] CACHE_NAME = [] := by
    unfold getCache
    simp [List.find?]
  rw [hget]
  cases addAll net urlsToCache ([] : Cache) with
  | some c1 =>
    dsimp only
    unfold setCache
    simp
  | none => rfl

theorem forceUpdate_single (net : String → Option StoredResponse)
    (c : Cache) :
    forceUpdate net [(CACHE_NAME, c)] = [(CACHE_NAME, refreshCache net c)] :=
  forceUpdate_eq_of_filter net [(CACHE_NAME, c)] c (by simp)

/-- Claim C9: over the same fetch results, invoking force-update twice
in succession yields the same final cache contents as invoking it once —
population is overwrite-based, so the second invocation adds nothing and
removes nothing. -/
theorem forceUpdate_idempotent (net : String → Option StoredResponse)
    (s : CacheStore) (hnd : (cachesKeys s).Nodup) :
    forceUpdate net (forceUpdate net s) = forceUpdate net s := by
  rcases filter_key_nodup s CACHE_NAME hnd with hfil | ⟨c0, hfil⟩
  · rw [forceUpdate_eq_of_filter_nil net s hfil, forceUpdate_single,
      refreshCache_idem]
  · rw [forceUpdate_eq_of_filter net s c0 hfil, forceUpdate_single,
      refreshCache_idem]

theorem forceUpdate_idempotent_witness :
    forceUpdate (fun u => some (StoredResponse.mk 200 "basic" u))
        (forceUpdate (fun u => some (StoredResponse.mk 200 "basic" u))
          [("old-gen", [("k", StoredResponse.mk 200 "basic" "o")])]) =
      forceUpdate (fun u => some (StoredResponse.mk 200 "basic" u))
        [("old-gen", [("k", StoredResponse.mk 200 "basic" "o")])] :=
  forceUpdate_idempotent (fun u => some (StoredResponse.mk 200 "basic" u))
    [("old-gen", [("k", StoredResponse.mk 200 "basic" "o")])] (by decide)

end SW
